import Mathlib

/-!
Verification of the entity-state reconciliation core of the Laal-Bus frontend
(src/frontend/src/components/UserView.tsx).

The core state is the React state variable `driverLocations : DriverLocation[]`
together with `activeDriversCount : number`. Three socket handlers mutate the
table:

- `driverLocationUpdate` (applyUpdate): find the first record whose id matches;
  if found, replace it in place with position updated and the position appended
  to its path; otherwise push a new record with path = [position].
- `driverLocations` (applySnapshot): replace the whole table by mapping each
  (id, position) entry of the payload object to a fresh record with
  path = [position].
- `driverCheck` (removeDriver): filter out every record whose id equals the
  given socket id.

Positions (leaflet LatLngExpression values) are opaque payloads here: the core
only stores them and never computes with them, so they are modelled as pairs of
integers. The TypeScript interface `DriverLocation` declares `path` as optional
(`path?`), hence `path : Option (List Position)`; it declares no `status`
field, so a record's status (read by `getActiveDriverLocations` as a dynamic
property, `undefined` at runtime) is modelled as `status : Option String`,
`none` meaning the field is absent.
-/

set_option autoImplicit false

namespace LaalBus

/-- Positions are opaque payloads (latitude, longitude); the core never
computes with them, so they are modelled as integer pairs. -/
abbrev Position := Int × Int

/-- The record type of the `driverLocations` table, from the `DriverLocation`
interface: `id`, `position`, optional `path`, and the dynamically read
`status` property that the interface never declares (hence `none` whenever a
handler builds a record). -/
structure DriverLocation where
  id : String
  position : Position
  path : Option (List Position)
  status : Option String
deriving Repr, DecidableEq

/-- The `driverLocationUpdate` handler. The source computes
`findIndex (driver => driver.id === data.id)`; on a hit it replaces the record
at that index by one with `position := data.position` and
`path := [...(existingDriver.path || []), data.position]` (spread keeps `id`
and `status`); on a miss it appends `{ ...data, path: [data.position] }` at
the end. The recursion below renders exactly that: the first record with a
matching id is replaced, and if none matches the new record goes at the end. -/
def applyUpdate : List DriverLocation → String → Position → List DriverLocation
  | [], id, position => [{ id := id, position := position, path := some [position], status := none }]
  | driver :: rest, id, position =>
    if driver.id = id then
      { driver with position := position,
                    path := some (driver.path.getD [] ++ [position]) } :: rest
    else
      driver :: applyUpdate rest id position

/-- The `driverLocations` handler: `Object.entries(drivers).map(([id, position])
=> ({ id, position, path: [position] }))` replaces the whole table. The payload
object is modelled as its entry list. -/
def applySnapshot (entries : List (String × Position)) : List DriverLocation :=
  entries.map (fun e => { id := e.1, position := e.2, path := some [e.2], status := none })

/-- The `driverCheck` handler:
`prevDrivers.filter (driverObj => driverObj.id !== socketId)`. -/
def removeDriver (table : List DriverLocation) (socketId : String) : List DriverLocation :=
  table.filter (fun driverObj => driverObj.id ≠ socketId)

/-- The `getActiveDriverLocations` helper:
`driverLocations.filter (driver => driver.status === "active")`. -/
def getActiveDriverLocations (table : List DriverLocation) : List DriverLocation :=
  table.filter (fun driver => driver.status = some "active")

/-- Lookup of the record a given id is associated with: the first record in the
table whose id matches, as `findIndex` would locate it. -/
def lookupDriver (table : List DriverLocation) (id : String) : Option DriverLocation :=
  table.find? (fun driver => driver.id = id)

/-- The three canonical inbound events of the reconciliation core. -/
inductive Event where
  | update (id : String) (position : Position)
  | snapshot (entries : List (String × Position))
  | remove (id : String)
deriving Repr, DecidableEq

/-- Dispatch of one canonical event to its handler. -/
def applyEvent (table : List DriverLocation) : Event → List DriverLocation
  | .update id position => applyUpdate table id position
  | .snapshot entries => applySnapshot entries
  | .remove id => removeDriver table id

/-- Folding a whole list of update events for one id into the table. -/
def applyUpdates (table : List DriverLocation) (id : String) (ps : List Position) :
    List DriverLocation :=
  ps.foldl (fun t p => applyUpdate t id p) table

/-- Table states reachable from the empty initial table under the three
handlers. A snapshot payload is a JavaScript object, whose keys are
necessarily pairwise distinct, hence the `Nodup` side condition. -/
inductive Reachable : List DriverLocation → Prop where
  | empty : Reachable []
  | update {t : List DriverLocation} (id : String) (p : Position) :
      Reachable t → Reachable (applyUpdate t id p)
  | snapshot {t : List DriverLocation} (entries : List (String × Position)) :
      Reachable t → (entries.map Prod.fst).Nodup → Reachable (applySnapshot entries)
  | remove {t : List DriverLocation} (id : String) :
      Reachable t → Reachable (removeDriver t id)

/-- The full component state the claims touch: the table plus the active-driver
count rendered in the header. -/
structure UserViewState where
  driverLocations : List DriverLocation
  activeDriversCount : Nat
deriving Repr, DecidableEq

/-- The `driverLocationUpdate` handler as a transition on the component state:
it calls `setDriverLocations` only. -/
def onDriverLocationUpdate (s : UserViewState) (id : String) (p : Position) : UserViewState :=
  { s with driverLocations := applyUpdate s.driverLocations id p }

/-- The `driverLocations` handler as a transition on the component state. -/
def onDriverLocations (s : UserViewState) (entries : List (String × Position)) : UserViewState :=
  { s with driverLocations := applySnapshot entries }

/-- The `driverCheck` handler as a transition on the component state. -/
def onDriverCheck (s : UserViewState) (socketId : String) : UserViewState :=
  { s with driverLocations := removeDriver s.driverLocations socketId }

/-- The `fetchActiveDriversCount` routine: it fetches `/drivers/active-count`
from the backend and stores the response `count` via `setActiveDriversCount`;
the local table is not consulted. `count` is the backend response value. -/
def fetchActiveDriversCount (s : UserViewState) (count : Nat) : UserViewState :=
  { s with activeDriversCount := count }

/-- A concrete record used as table fixture in witness statements. -/
def sampleA : DriverLocation :=
  { id := "a", position := (1, 2), path := some [(1, 2)], status := none }

/-- A second concrete record used as table fixture in witness statements. -/
def sampleB : DriverLocation :=
  { id := "b", position := (5, 6), path := some [(5, 6)], status := none }

/-! Helper lemmas about the handlers. -/

theorem lookupDriver_nil (id : String) : lookupDriver [] id = none := rfl

theorem lookupDriver_cons (d : DriverLocation) (rest : List DriverLocation) (id : String) :
    lookupDriver (d :: rest) id = if d.id = id then some d else lookupDriver rest id := by
  by_cases h : d.id = id <;> simp [lookupDriver, List.find?_cons, h]

/-- When no record in the table carries the id, the update handler appends the
fresh record at the end. -/
theorem applyUpdate_of_not_mem (t : List DriverLocation) (id : String) (p : Position)
    (h : ∀ d ∈ t, d.id ≠ id) :
    applyUpdate t id p =
      t ++ [{ id := id, position := p, path := some [p], status := none }] := by
  induction t with
  | nil => simp [applyUpdate]
  | cons d rest ih =>
    have hd : d.id ≠ id := h d (List.mem_cons_self d rest)
    simp only [applyUpdate, if_neg hd, List.cons_append, List.cons.injEq, true_and]
    exact ih fun d2 hd2 => h d2 (List.mem_cons_of_mem d hd2)

/-- When the table holds a record for the id, one update rewrites exactly that
record: position replaced, position appended to its path. -/
theorem lookupDriver_applyUpdate_of_found (t : List DriverLocation) (id : String) (p : Position)
    (r : DriverLocation) (h : lookupDriver t id = some r) :
    lookupDriver (applyUpdate t id p) id =
      some { r with position := p, path := some (r.path.getD [] ++ [p]) } := by
  induction t with
  | nil => simp [lookupDriver_nil] at h
  | cons d rest ih =>
    rw [lookupDriver_cons] at h
    by_cases hd : d.id = id
    · rw [if_pos hd] at h
      cases h
      simp only [applyUpdate, if_pos hd]
      rw [lookupDriver_cons]
      simp [hd]
    · rw [if_neg hd] at h
      simp only [applyUpdate, if_neg hd]
      rw [lookupDriver_cons]
      simp only [hd, if_false]
      exact ih h

/-- Folding a list of updates for an id already present in the table appends
the whole position list to the record's path and leaves the last position as
the current one. -/
theorem lookupDriver_applyUpdates_of_found (id : String) (qs : List Position) :
    ∀ (t : List DriverLocation) (r : DriverLocation) (l : List Position),
      lookupDriver t id = some r → r.path = some l →
      lookupDriver (applyUpdates t id qs) id =
        some { r with position := qs.getLastD r.position, path := some (l ++ qs) } := by
  induction qs with
  | nil =>
    intro t r l h hp
    simp only [applyUpdates, List.foldl_nil, List.getLastD_nil, List.append_nil, h, ← hp]
  | cons q qs ih =>
    intro t r l h hp
    have h1 := lookupDriver_applyUpdate_of_found t id q r h
    rw [hp] at h1
    have h2 := ih (applyUpdate t id q) _ (l ++ [q]) h1 rfl
    simp only [applyUpdates, List.foldl_cons] at h2 ⊢
    rw [h2, List.getLastD_cons, List.append_assoc, List.singleton_append]

/-- Every record of an updated table is an untouched record of the old table,
the rewritten form of an old record, or the freshly created record. -/
theorem mem_applyUpdate {t : List DriverLocation} {id : String} {p : Position}
    {d : DriverLocation} (hd : d ∈ applyUpdate t id p) :
    d ∈ t ∨
    (∃ d0 ∈ t, d = { d0 with position := p, path := some (d0.path.getD [] ++ [p]) }) ∨
    d = { id := id, position := p, path := some [p], status := none } := by
  induction t with
  | nil =>
    simp only [applyUpdate, List.mem_singleton] at hd
    exact Or.inr (Or.inr hd)
  | cons d0 rest ih =>
    by_cases h0 : d0.id = id
    · simp only [applyUpdate, if_pos h0, List.mem_cons] at hd
      rcases hd with hd | hd
      · exact Or.inr (Or.inl ⟨d0, List.mem_cons_self d0 rest, hd⟩)
      · exact Or.inl (List.mem_cons_of_mem d0 hd)
    · simp only [applyUpdate, if_neg h0, List.mem_cons] at hd
      rcases hd with hd | hd
      · exact Or.inl (hd ▸ List.mem_cons_self d0 rest)
      · rcases ih hd with h | ⟨d1, h1, h2⟩ | h
        · exact Or.inl (List.mem_cons_of_mem d0 h)
        · exact Or.inr (Or.inl ⟨d1, List.mem_cons_of_mem d0 h1, h2⟩)
        · exact Or.inr (Or.inr h)

/-- Effect of one update on the table's key list: an update for a present id
keeps the key list; an update for an unknown id appends it. -/
theorem map_id_applyUpdate (t : List DriverLocation) (id : String) (p : Position) :
    (applyUpdate t id p).map DriverLocation.id =
      if id ∈ t.map DriverLocation.id then t.map DriverLocation.id
      else t.map DriverLocation.id ++ [id] := by
  induction t with
  | nil => simp [applyUpdate]
  | cons d rest ih =>
    by_cases h0 : d.id = id
    · simp [applyUpdate, if_pos h0, h0]
    · simp only [applyUpdate, if_neg h0, List.map_cons, ih, List.mem_cons]
      by_cases hm : id ∈ rest.map DriverLocation.id
      · simp [hm, Ne.symm h0]
      · simp [hm, Ne.symm h0]

/-- C4: the driverCheck handler deletes the record for a present id; for an
absent id it leaves the table unchanged (a no-op, not an error); removing the
same id twice equals removing it once. -/
theorem removeDriver_spec (t : List DriverLocation) (id : String) :
    lookupDriver (removeDriver t id) id = none ∧
    (lookupDriver t id = none → removeDriver t id = t) ∧
    removeDriver (removeDriver t id) id = removeDriver t id := by
  refine ⟨?_, ?_, ?_⟩
  · simp only [lookupDriver, removeDriver, List.find?_eq_none]
    intro d hd
    have := List.of_mem_filter hd
    simpa using this
  · intro h
    simp only [lookupDriver, List.find?_eq_none] at h
    simp only [removeDriver, List.filter_eq_self]
    intro d hd
    have := h d hd
    simpa using this
  · simp only [removeDriver]
    apply List.filter_eq_self.mpr
    intro d hd
    exact (List.mem_filter.mp hd).2

/-- Witness for C4 at the table [sampleA] and the id "b": the id is absent,
so the no-op branch is exercised. -/
theorem removeDriver_spec_witness :
    lookupDriver [sampleA] "b" = none ∧
    (lookupDriver (removeDriver [sampleA] "b") "b" = none ∧
     (lookupDriver [sampleA] "b" = none → removeDriver [sampleA] "b" = [sampleA]) ∧
     removeDriver (removeDriver [sampleA] "b") "b" = removeDriver [sampleA] "b") :=
  ⟨by decide, removeDriver_spec [sampleA] "b"⟩

/-- C8: an update for one id leaves the record any other id is associated with
untouched, both branches of the handler included. -/
theorem applyUpdate_frame (t : List DriverLocation) (id id2 : String) (p : Position)
    (h : id2 ≠ id) :
    lookupDriver (applyUpdate t id p) id2 = lookupDriver t id2 := by
  induction t with
  | nil =>
    simp only [applyUpdate, lookupDriver_nil, lookupDriver_cons]
    simp [Ne.symm h]
  | cons d rest ih =>
    by_cases h0 : d.id = id
    · simp only [applyUpdate, if_pos h0]
      rw [lookupDriver_cons, lookupDriver_cons]
      have : d.id ≠ id2 := fun hc => h (hc ▸ h0 ▸ rfl)
      simp [h0 ▸ this, this]
    · simp only [applyUpdate, if_neg h0]
      rw [lookupDriver_cons, lookupDriver_cons]
      by_cases h2 : d.id = id2
      · simp [h2]
      · simp [h2, ih]

/-- Witness for C8: updating "a" in a one-record table for "b" leaves the
record of "b" where it was. -/
theorem applyUpdate_frame_witness :
    lookupDriver (applyUpdate [sampleB] "a" (1, 2)) "b" = lookupDriver [sampleB] "b" :=
  applyUpdate_frame [sampleB] "a" "b" (1, 2) (by decide)

/-- With pairwise distinct payload keys, the fresh table applySnapshot builds
associates each payload id with the fresh record holding just the snapshot
position. -/
theorem lookupDriver_applySnapshot (entries : List (String × Position))
    (hnodup : (entries.map Prod.fst).Nodup) (e : String × Position) (he : e ∈ entries) :
    lookupDriver (applySnapshot entries) e.1 =
      some { id := e.1, position := e.2, path := some [e.2], status := none } := by
  induction entries with
  | nil => simp at he
  | cons e0 rest ih =>
    simp only [applySnapshot, List.map_cons]
    rw [lookupDriver_cons]
    rcases List.mem_cons.mp he with he0 | he0
    · subst he0
      simp
    · have hne : e0.1 ≠ e.1 := by
        intro hc
        rw [List.map_cons, List.nodup_cons] at hnodup
        exact hnodup.1 (hc ▸ List.mem_map_of_mem Prod.fst he0)
      simp only [hne, if_false]
      have hnodup2 : (rest.map Prod.fst).Nodup := by
        rw [List.map_cons, List.nodup_cons] at hnodup
        exact hnodup.2
      simpa [applySnapshot] using ih hnodup2 he0

/-- C2: the driverLocations handler replaces the table: the key list of the
result is exactly the key list of the payload entries (prior records for ids
absent from the payload are gone, since the prior table is discarded), each
payload id maps to a fresh record holding just the snapshot position, and ids
outside the payload map to nothing. -/
theorem applySnapshot_spec (entries : List (String × Position))
    (hnodup : (entries.map Prod.fst).Nodup) (e : String × Position) (he : e ∈ entries)
    (idAbsent : String) (habs : ∀ e2 ∈ entries, e2.1 ≠ idAbsent) :
    (applySnapshot entries).map DriverLocation.id = entries.map Prod.fst ∧
    lookupDriver (applySnapshot entries) e.1 =
      some { id := e.1, position := e.2, path := some [e.2], status := none } ∧
    lookupDriver (applySnapshot entries) idAbsent = none := by
  refine ⟨by simp [applySnapshot], lookupDriver_applySnapshot entries hnodup e he, ?_⟩
  simp only [lookupDriver, List.find?_eq_none, applySnapshot]
  intro d hd
  rcases List.mem_map.mp hd with ⟨e2, he2, rfl⟩
  simpa using habs e2 he2

/-- Witness for C2 at the one-entry payload {a: (1,2)} and the absent id "b". -/
theorem applySnapshot_spec_witness :
    (applySnapshot [("a", sampleA.position)]).map DriverLocation.id =
      [("a", sampleA.position)].map Prod.fst ∧
    lookupDriver (applySnapshot [("a", sampleA.position)]) "a" =
      some { id := "a", position := sampleA.position, path := some [sampleA.position],
             status := none } ∧
    lookupDriver (applySnapshot [("a", sampleA.position)]) "b" = none :=
  applySnapshot_spec [("a", sampleA.position)] (by decide) ("a", sampleA.position)
    (by decide) "b" (by decide)

/-- Looking up an id that misses every record of the front part of an append
finds the appended record carrying that id. -/
theorem lookupDriver_append_of_not_mem (t : List DriverLocation) (d : DriverLocation)
    (id : String) (h : ∀ d2 ∈ t, d2.id ≠ id) (hd : d.id = id) :
    lookupDriver (t ++ [d]) id = some d := by
  induction t with
  | nil =>
    rw [List.nil_append, lookupDriver_cons]
    simp [hd]
  | cons d0 rest ih =>
    rw [List.cons_append, lookupDriver_cons]
    have h0 : d0.id ≠ id := h d0 (List.mem_cons_self d0 rest)
    simp only [h0, if_false]
    exact ih fun d2 h2 => h d2 (List.mem_cons_of_mem d0 h2)

/-- The default-carrying last element of a cons is its getLast. -/
theorem getLastD_eq_getLast_cons (p : Position) (rest : List Position) :
    rest.getLastD p = (p :: rest).getLast (List.cons_ne_nil p rest) := by
  induction rest generalizing p with
  | nil => rfl
  | cons q qs ih => rw [List.getLastD_cons, ih q, List.getLast_cons_cons]

/-- C1: for a sequence of driverLocationUpdate events with one id, starting
from a table in which the id is unknown: the first call creates the record
with path = [p1]; after all n calls the record for the id holds the last
applied position as its current position and the positions in call order as
its path, whose length is n. -/
theorem applyUpdate_sequence (t : List DriverLocation) (id : String) (p : Position)
    (rest : List Position) (hunknown : ∀ d ∈ t, d.id ≠ id) :
    lookupDriver (applyUpdate t id p) id =
      some { id := id, position := p, path := some [p], status := none } ∧
    lookupDriver (applyUpdates t id (p :: rest)) id =
      some { id := id, position := (p :: rest).getLast (List.cons_ne_nil p rest),
             path := some (p :: rest), status := none } ∧
    (lookupDriver (applyUpdates t id (p :: rest)) id).map
        (fun r => (r.path.getD []).length) = some (rest.length + 1) := by
  have hfresh : lookupDriver (applyUpdate t id p) id =
      some { id := id, position := p, path := some [p], status := none } := by
    rw [applyUpdate_of_not_mem t id p hunknown]
    exact lookupDriver_append_of_not_mem t _ id hunknown rfl
  have hstep : applyUpdates t id (p :: rest) = applyUpdates (applyUpdate t id p) id rest := by
    simp [applyUpdates]
  have hseq := lookupDriver_applyUpdates_of_found id rest (applyUpdate t id p)
    { id := id, position := p, path := some [p], status := none } [p] hfresh rfl
  refine ⟨hfresh, ?_, ?_⟩
  · rw [hstep, hseq, ← getLastD_eq_getLast_cons, List.singleton_append]
  · rw [hstep, hseq]
    simp

/-- Witness for C1 at the empty table, the id "a" and the two positions (1,2)
then (3,4). -/
theorem applyUpdate_sequence_witness :
    lookupDriver (applyUpdate [] "a" (1, 2)) "a" =
      some { id := "a", position := (1, 2), path := some [(1, 2)], status := none } ∧
    lookupDriver (applyUpdates [] "a" [(1, 2), (3, 4)]) "a" =
      some { id := "a", position := ([(1, 2), (3, 4)] : List Position).getLast
               (List.cons_ne_nil (1, 2) [(3, 4)]),
             path := some [(1, 2), (3, 4)], status := none } ∧
    (lookupDriver (applyUpdates [] "a" [(1, 2), (3, 4)]) "a").map
        (fun r => (r.path.getD []).length) = some 2 :=
  applyUpdate_sequence [] "a" (1, 2) [(3, 4)] (by simp)

/-- Every record of every reachable table has a set, non-empty path ending in
the record's current position. -/
theorem reachable_path_aux {t : List DriverLocation} (h : Reachable t) :
    ∀ d ∈ t, d.path ≠ none ∧ d.path.getD [] ≠ [] ∧
      (d.path.getD []).getLast? = some d.position := by
  induction h with
  | empty => simp
  | update id p ht ih =>
    intro d hd
    rcases mem_applyUpdate hd with h1 | ⟨d0, h0, rfl⟩ | rfl
    · exact ih d h1
    · exact ⟨by simp, by simp, by simp [List.getLast?_concat]⟩
    · exact ⟨by simp, by simp, by simp⟩
  | snapshot entries ht hnodup ih =>
    intro d hd
    rcases List.mem_map.mp hd with ⟨e, he, rfl⟩
    exact ⟨by simp, by simp, by simp⟩
  | remove id ht ih =>
    intro d hd
    exact ih d (List.mem_filter.mp hd).1

/-- C3: on every table reachable from the empty table under the three
handlers, every record's path is set and non-empty, and its last element
equals the record's current position. -/
theorem reachable_path_last_eq_position {t : List DriverLocation} (h : Reachable t)
    (d : DriverLocation) (hd : d ∈ t) :
    d.path ≠ none ∧ d.path.getD [] ≠ [] ∧
      (d.path.getD []).getLast? = some d.position :=
  reachable_path_aux h d hd

/-- Witness for C3 at the reachable one-record table built by one update. -/
theorem reachable_path_last_eq_position_witness :
    sampleA.path ≠ none ∧ sampleA.path.getD [] ≠ [] ∧
      (sampleA.path.getD []).getLast? = some sampleA.position :=
  reachable_path_last_eq_position (Reachable.update "a" (1, 2) Reachable.empty) sampleA
    (by decide)

/-- No handler ever stores a status on a record: every record of every
reachable table has an absent status field. -/
theorem reachable_status_none {t : List DriverLocation} (h : Reachable t) :
    ∀ d ∈ t, d.status = none := by
  induction h with
  | empty => simp
  | update id p ht ih =>
    intro d hd
    rcases mem_applyUpdate hd with h1 | ⟨d0, h0, rfl⟩ | rfl
    · exact ih d h1
    · exact ih d0 h0
    · rfl
  | snapshot entries ht hnodup ih =>
    intro d hd
    rcases List.mem_map.mp hd with ⟨e, he, rfl⟩
    rfl
  | remove id ht ih =>
    intro d hd
    exact ih d (List.mem_filter.mp hd).1

/-- C5: on every reachable table, the active-status filter keeps nothing,
since no handler ever populates a status field. -/
theorem getActiveDriverLocations_reachable_eq_nil {t : List DriverLocation}
    (h : Reachable t) : getActiveDriverLocations t = [] := by
  simp only [getActiveDriverLocations, List.filter_eq_nil_iff]
  intro d hd
  simp [reachable_status_none h d hd]

/-- Witness for C5 at the reachable one-record table built by one update. -/
theorem getActiveDriverLocations_reachable_eq_nil_witness :
    getActiveDriverLocations (applyUpdate [] "a" (1, 2)) = [] :=
  getActiveDriverLocations_reachable_eq_nil (Reachable.update "a" (1, 2) Reachable.empty)

/-- C10: on every reachable table the record ids are pairwise distinct, so
each entity id is associated with at most one record. -/
theorem reachable_ids_nodup {t : List DriverLocation} (h : Reachable t) :
    (t.map DriverLocation.id).Nodup := by
  induction h with
  | empty => simp
  | @update t2 id p ht ih =>
    rw [map_id_applyUpdate]
    by_cases hm : id ∈ t2.map DriverLocation.id
    · simpa [hm] using ih
    · simp [hm, List.nodup_append, ih]
  | snapshot entries ht hnodup ih =>
    simpa [applySnapshot, List.map_map, Function.comp] using hnodup
  | @remove t2 id ht ih =>
    exact List.Nodup.sublist ((List.filter_sublist t2).map DriverLocation.id) ih

/-- Witness for C10 at the reachable one-record table built by one update. -/
theorem reachable_ids_nodup_witness :
    ((applyUpdate [] "a" (1, 2)).map DriverLocation.id).Nodup :=
  reachable_ids_nodup (Reachable.update "a" (1, 2) Reachable.empty)

/-- C9-counterexample: the driverLocationUpdate handler adds a record but does
not touch activeDriversCount, so right after the add the rendered count (still
0) differs from the size of the local table (1). -/
theorem activeDriversCount_counterexample :
    (onDriverLocationUpdate { driverLocations := [], activeDriversCount := 0 }
        "a" (1, 2)).activeDriversCount ≠
      (onDriverLocationUpdate { driverLocations := [], activeDriversCount := 0 }
        "a" (1, 2)).driverLocations.length := by
  decide

/-- C9-amended: none of the three table handlers changes activeDriversCount;
the count equals the value last stored by fetchActiveDriversCount, which is
the backend response, not the size of the local table. -/
theorem activeDriversCount_amended (s : UserViewState) (id : String) (p : Position)
    (entries : List (String × Position)) (id2 : String) (n : Nat) :
    (onDriverLocationUpdate s id p).activeDriversCount = s.activeDriversCount ∧
    (onDriverLocations s entries).activeDriversCount = s.activeDriversCount ∧
    (onDriverCheck s id2).activeDriversCount = s.activeDriversCount ∧
    (fetchActiveDriversCount s n).activeDriversCount = n :=
  ⟨rfl, rfl, rfl, rfl⟩

/-- C6-scenario: starting from any table state, FullSnapshot{a:[1,1], b:[2,2]} followed
by PositionUpdate{id:"c", [3,3]} yields exactly the three entities a, b, c with
a.path = [[1,1]] and c.path = [[3,3]]. -/
theorem snapshot_then_update_scenario (t : List DriverLocation) :
    applyEvent (applyEvent t (.snapshot [("a", (1, 1)), ("b", (2, 2))])) (.update "c" (3, 3)) =
      [{ id := "a", position := (1, 1), path := some [(1, 1)], status := none },
       { id := "b", position := (2, 2), path := some [(2, 2)], status := none },
       { id := "c", position := (3, 3), path := some [(3, 3)], status := none }] := by
  simp [applyEvent, applySnapshot, applyUpdate]

/-- C7: from the empty table, PositionUpdate{id:"a", [10,20]}, then
PositionUpdate{id:"a", [10,21]}, then Removed{id:"a"} leaves the table empty. -/
theorem update_update_remove_scenario :
    applyEvent (applyEvent (applyEvent [] (.update "a" (10, 20))) (.update "a" (10, 21)))
      (.remove "a") = [] := by
  simp [applyEvent, applyUpdate, removeDriver]

end LaalBus
